import Mathlib

/-!
Verification development for the AI_Search-Agent repository.

The repository has two source files:
* `web_operations.py` — a client for the Bright Data search API
  (`_make_api_request`, `serp_search`, snapshot-based reddit operations);
* `api_server.py` — a FastAPI server tracking research jobs
  (`search_sessions` store, `log_to_session`, `update_session_progress`,
  `run_research_with_tracking`, and the HTTP endpoints).

This file shallowly embeds those parts and proves properties about them.
-/

namespace AISearch

/-! ## JSON values

`_make_api_request` returns `response.json()`, an arbitrary parsed JSON
value (or Python `None`, modelled as `Option.none`, when any transport,
status or parsing failure was caught).  We embed JSON values so that
Python truthiness and `dict.get` can be modelled faithfully. -/

inductive Json where
  | null : Json
  | bool (b : Bool) : Json
  | num (n : Int) : Json
  | str (s : String) : Json
  | arr (elems : List Json) : Json
  | obj (fields : List (String × Json)) : Json

/-- Python truthiness of a JSON value (`if full_response:`). -/
def Json.truthy : Json → Bool
  | .null => false
  | .bool b => b
  | .num n => n != 0
  | .str s => s != ""
  | .arr elems => !elems.isEmpty
  | .obj fields => !fields.isEmpty

/-- First-match lookup in a JSON object's field list (Python dicts have
unique keys, so first-match agrees with dict lookup). -/
def kvLookup : List (String × Json) → String → Option Json
  | [], _ => none
  | (k, v) :: rest, key => if k = key then some v else kvLookup rest key

/-- Exceptions that the embedded Python code can raise. -/
inductive PyErr where
  | valueError (msg : String) : PyErr
  | attributeError (msg : String) : PyErr
deriving DecidableEq

/-- Python `x.get(key, default)`: defined on dicts, raises
`AttributeError` on any other value (e.g. a JSON list). -/
def jsonGet (j : Json) (key : String) (dflt : Json) : Except PyErr Json :=
  match j with
  | .obj fields => .ok ((kvLookup fields key).getD dflt)
  | _ => .error (.attributeError "object has no attribute get")

/-! ## `web_operations.serp_search` -/

/-- The normalized search result built in `serp_search`. -/
structure SerpResult where
  knowledge : Json
  organic : Json

/-- The `extracted_data` dict built in `serp_search` from a truthy
response: `knowledge` defaults to `{}`, `organic` defaults to `[]`.
Evaluation order follows the source (knowledge first). -/
def extracted_data (full_response : Json) : Except PyErr SerpResult := do
  let k ← jsonGet full_response "knowledge" (Json.obj [])
  let o ← jsonGet full_response "organic" (Json.arr [])
  return ⟨k, o⟩

/-- The zone list hard-coded in `serp_search`. -/
def zones_to_try : List String := ["ai_agent"]

/-- The body of `serp_search`'s `for zone in zones_to_try` loop.
`oracle z` is the value `_make_api_request` returns for zone `z`:
`none` models every failure that `_make_api_request` catches (transport
error, non-2xx status, unparseable body), `some j` models a parsed JSON
body `j`.  Returns the list of zones for which a request was issued,
paired with the loop's outcome. -/
def serpZoneLoop (oracle : String → Option Json) :
    List String → List String × Except PyErr (Option SerpResult)
  | [] => ([], .ok none)
  | z :: zs =>
    match oracle z with
    | some j =>
      if j.truthy then
        ([z], (extracted_data j).map some)
      else
        let r := serpZoneLoop oracle zs
        (z :: r.1, r.2)
    | none =>
      let r := serpZoneLoop oracle zs
      (z :: r.1, r.2)

/-- `serp_search(query, engine)`: rejects unsupported engines with a
`ValueError` before any request is made, then tries the configured zones
in order.  The first component records the zones actually requested. -/
def serp_search (query : String) (engine : String)
    (oracle : String → Option Json) :
    List String × Except PyErr (Option SerpResult) :=
  if engine = "google" then
    serpZoneLoop oracle zones_to_try
  else if engine = "bing" then
    serpZoneLoop oracle zones_to_try
  else
    ([], .error (.valueError "Unsupported search engine. Use 'google' or 'bing'."))

/-! Spec-side descriptions used to state the refinement for C5. -/

/-- Spec-side: the parsed body of the first zone (in order) whose
request succeeded with a truthy payload. -/
def firstTruthyJson (oracle : String → Option Json) : List String → Option Json
  | [] => none
  | z :: zs =>
    match oracle z with
    | some j => if j.truthy then some j else firstTruthyJson oracle zs
    | none => firstTruthyJson oracle zs

/-- Spec-side: normalization of an object payload (total function). -/
def serpNormalize (j : Json) : SerpResult :=
  match j with
  | .obj fields =>
    ⟨(kvLookup fields "knowledge").getD (Json.obj []),
     (kvLookup fields "organic").getD (Json.arr [])⟩
  | _ => ⟨Json.obj [], Json.arr []⟩

/-- Spec-side: the zones requested, in order, up to and including the
first zone with a truthy response. -/
def requestedZones (oracle : String → Option Json) : List String → List String
  | [] => []
  | z :: zs =>
    match oracle z with
    | some j => if j.truthy then [z] else z :: requestedZones oracle zs
    | none => z :: requestedZones oracle zs

/-! ## `api_server` data model -/

/-- One record of the `search_sessions` store, as initialized by
`start_search` and mutated by the tracking functions. -/
structure Session where
  session_id : String
  question : String
  status : String
  progress : Int
  current_step : String
  message : String
  result : Option String
  output_log : String
  created_at : String
  updated_at : String
  completed_at : Option String
deriving DecidableEq

/-- The `search_sessions` dict: an association list keyed by session id
(insertion ordered, unique keys when built through `storeSet`). -/
abbrev SessionStore := List (String × Session)

/-- `search_sessions.get`-style lookup (`session_id in search_sessions`
and `search_sessions[session_id]` reads). -/
def storeGet : SessionStore → String → Option Session
  | [], _ => none
  | (k, v) :: rest, sid => if k = sid then some v else storeGet rest sid

/-- In-place mutation of the record stored under `sid` (models
`search_sessions[session_id].update(...)` and item assignment on an
existing key). -/
def storeUpdate : SessionStore → String → (Session → Session) → SessionStore
  | [], _, _ => []
  | (k, v) :: rest, sid, f =>
    if k = sid then (k, f v) :: storeUpdate rest sid f
    else (k, v) :: storeUpdate rest sid f

/-- Python dict item assignment: overwrite if the key is present,
append a new entry otherwise. -/
def storeSet (store : SessionStore) (sid : String) (sess : Session) :
    SessionStore :=
  if (storeGet store sid).isSome then
    storeUpdate store sid fun _ => sess
  else
    store ++ [(sid, sess)]

/-- `log_to_session`: if the session exists, append one timestamped line
to its output log; otherwise do nothing. -/
def log_to_session (store : SessionStore) (sid msg ts : String) : SessionStore :=
  if (storeGet store sid).isSome then
    storeUpdate store sid fun s =>
      { s with output_log := s.output_log ++ "[" ++ ts ++ "] " ++ msg ++ "\n" }
  else store

/-- `update_session_progress`: if the session exists, update
progress/step/message/updated_at and then log `"{step}: {message}"`. -/
def update_session_progress (store : SessionStore) (sid : String)
    (progress : Int) (step msg ts : String) : SessionStore :=
  if (storeGet store sid).isSome then
    log_to_session
      (storeUpdate store sid fun s =>
        { s with progress := progress, current_step := step,
                 message := msg, updated_at := ts })
      sid (step ++ ": " ++ msg) ts
  else store

/-! ## The background run (`run_research_with_tracking`) -/

/-- Modelled from the spec: the state returned by the opaque pipeline
(`graph.invoke` from `main.py`, which is not part of the repository;
the spec treats it as an opaque collaborator whose final state "carries
an optional synthesized answer").  `truthy` is the Python truthiness of
the returned state object; `final_answer` is its `final_answer` field
(absent or `None` modelled as `none`). -/
structure PipelineState where
  truthy : Bool
  final_answer : Option String

/-- The answer accepted by the classification test
`if final_state and final_state.get("final_answer"):` — `some a` exactly
when the state is truthy and carries a non-empty `final_answer`. -/
def hasFinalAnswer : Option PipelineState → Option String
  | some st =>
    if st.truthy then
      match st.final_answer with
      | some a => if a = "" then none else some a
      | none => none
    else none
  | none => none

/-- How one invocation of the pipeline from the worker thread ends:
`returns fs` — `future.result` returned `fs` within the budget;
`timedOut started` — `concurrent.futures.TimeoutError` was raised
(`started` records whether `run_graph`'s own tracking steps had run
before the deadline);
`raises k msg` — an exception with text `msg` reached the outer
`except Exception` handler after the first `k` tracking steps. -/
inductive PipelineOutcome where
  | returns (final_state : Option PipelineState) : PipelineOutcome
  | timedOut (graphStarted : Bool) : PipelineOutcome
  | raises (k : Nat) (msg : String) : PipelineOutcome

/-- The wall-clock budget passed to `future.result` (seconds). -/
def RESEARCH_TIMEOUT_SECONDS : Nat := 420

/-- The fixed result text written on timeout. -/
def timeoutResultMsg : String :=
  "Research process timed out. Try a simpler query or check your internet connection."

/-- The fixed result text written on `partial_success`. -/
def partialResultMsg : String :=
  "Research completed with partial results. Some data sources may have failed."

/-- The fixed leading text of the result written on `error`. -/
def errorResultLead : String := "Research failed due to an error: "

/-- One store mutation performed by `run_research_with_tracking`. -/
inductive Ev where
  | setRunning : Ev
  | progressEv (ts : String) (p : Int) (step msg : String) : Ev
  | logEv (ts msg : String) : Ev
  | finishEv (ts status : String) (p : Int) (step msg res : String) : Ev

/-- Apply one mutation to the store, exactly as the source does:
`setRunning` is `search_sessions[sid]["status"] = "running"`,
`progressEv` is `update_session_progress`, `logEv` is `log_to_session`,
and `finishEv` is the terminal `search_sessions[sid].update({...})`. -/
def applyEv (sid : String) (store : SessionStore) (ev : Ev) : SessionStore :=
  match ev with
  | .setRunning => storeUpdate store sid fun s => { s with status := "running" }
  | .progressEv ts p step msg => update_session_progress store sid p step msg ts
  | .logEv ts msg => log_to_session store sid msg ts
  | .finishEv ts st p step msg res =>
    storeUpdate store sid fun s =>
      { s with status := st, progress := p, current_step := step,
               message := msg, result := some res, completed_at := some ts }

/-- The three tracking steps before the executor is entered. -/
def startEvents (q : String) (tsf : Nat → String) : List Ev :=
  [ .setRunning,
    .progressEv (tsf 0) 5 "initializing" "Starting research process...",
    .logEv (tsf 1) ("🚀 Starting multi-source research for: '" ++ q ++ "'") ]

/-- The two tracking steps performed inside `run_graph` before
`graph.invoke`. -/
def graphEvents (tsf : Nat → String) : List Ev :=
  [ .logEv (tsf 2) "🔄 Starting parallel research process...",
    .progressEv (tsf 3) 10 "research_started" "Running parallel searches..." ]

/-- The steps after `future.result` returns `fs`: the
completed/partial_success classification. -/
def finishEvents (tsf : Nat → String) (fs : Option PipelineState) : List Ev :=
  match hasFinalAnswer fs with
  | some a =>
    [ .finishEv (tsf 4) "completed" 100 "completed"
        "Research completed successfully!" a,
      .logEv (tsf 5) "🎉 Research completed successfully!" ]
  | none =>
    [ .finishEv (tsf 4) "partial_success" 90 "completed_with_issues"
        "Research completed but with some issues" partialResultMsg,
      .logEv (tsf 5) "⚠️ Research completed with some issues" ]

/-- The steps of the `concurrent.futures.TimeoutError` handler. -/
def timeoutEvents (tsf : Nat → String) : List Ev :=
  [ .finishEv (tsf 4) "timeout" 75 "timeout"
      "Research timed out after 7 minutes" timeoutResultMsg,
    .logEv (tsf 5) "⏰ Research timed out after 7 minutes" ]

/-- The steps of the outer `except Exception` handler: log first, then
the terminal update with progress 0 and the fault text embedded. -/
def errorEvents (tsf : Nat → String) (msg : String) : List Ev :=
  [ .logEv (tsf 4) ("❌ Research failed: " ++ msg),
    .finishEv (tsf 5) "error" 0 "error" ("Error occurred: " ++ msg)
      (errorResultLead ++ msg) ]

/-- The ordered list of store mutations performed by one call of
`run_research_with_tracking`, by outcome.  `tsf i` supplies the text of
the i-th `datetime.now()` reading. -/
def runEvents (q : String) (tsf : Nat → String) : PipelineOutcome → List Ev
  | .returns fs => startEvents q tsf ++ graphEvents tsf ++ finishEvents tsf fs
  | .timedOut started =>
    startEvents q tsf ++ (if started then graphEvents tsf else []) ++
      timeoutEvents tsf
  | .raises k msg =>
    (startEvents q tsf ++ graphEvents tsf).take k ++ errorEvents tsf msg

/-- The store produced by a completed call of
`run_research_with_tracking`. -/
def run_research_with_tracking (q sid : String) (tsf : Nat → String)
    (outcome : PipelineOutcome) (store : SessionStore) : SessionStore :=
  (runEvents q tsf outcome).foldl (applyEv sid) store

/-- The trace of stores observed during one call of
`run_research_with_tracking` (initial store first). -/
def runTrace (q sid : String) (tsf : Nat → String)
    (outcome : PipelineOutcome) (store : SessionStore) : List SessionStore :=
  (runEvents q tsf outcome).scanl (applyEv sid) store

/-! ## HTTP endpoints -/

structure SearchResponse where
  session_id : String
  status : String
  message : String
deriving DecidableEq

structure StatusResponse where
  session_id : String
  status : String
  progress : Int
  current_step : String
  message : String
  result : Option String
deriving DecidableEq

structure OutputResponse where
  session_id : String
  output_log : String
deriving DecidableEq

/-- A FastAPI `HTTPException`. -/
structure HTTPError where
  status_code : Nat
  detail : String
deriving DecidableEq

/-- The session record created by `start_search`. -/
def mkSession (question sid ts : String) : Session :=
  { session_id := sid, question := question, status := "started",
    progress := 0, current_step := "initializing",
    message := "Research session started", result := none, output_log := "",
    created_at := ts, updated_at := ts, completed_at := none }

/-- `POST /search`: unconditionally create the session record under a
fresh uuid `sid` and answer with status "started".  The function is
total: submission never fails. -/
def start_search (store : SessionStore) (question sid ts : String) :
    SessionStore × SearchResponse :=
  (storeSet store sid (mkSession question sid ts),
   ⟨sid, "started", "Research session started successfully"⟩)

/-- `GET /status/{session_id}`. -/
def get_search_status (store : SessionStore) (sid : String) :
    Except HTTPError StatusResponse :=
  match storeGet store sid with
  | none => .error ⟨404, "Session not found"⟩
  | some s => .ok ⟨sid, s.status, s.progress, s.current_step, s.message, s.result⟩

/-- `GET /output/{session_id}`. -/
def get_output_log (store : SessionStore) (sid : String) :
    Except HTTPError OutputResponse :=
  match storeGet store sid with
  | none => .error ⟨404, "Session not found"⟩
  | some s => .ok ⟨sid, s.output_log⟩

/-- `DELETE /session/{session_id}`: `del search_sessions[sid]` when
present. -/
def delete_session (store : SessionStore) (sid : String) :
    SessionStore × Except HTTPError String :=
  match storeGet store sid with
  | none => (store, .error ⟨404, "Session not found"⟩)
  | some _ =>
    (store.filter fun p => !(p.1 == sid), .ok "Session deleted successfully")

/-! ## Derived views used in the statements -/

/-- The four terminal statuses. -/
def terminalStatuses : List String :=
  ["completed", "partial_success", "timeout", "error"]

/-- The session stored under `sid` (the claims are only applied at
stores where `sid` is present, so the default is never reached). -/
def sessionAt (sid : String) (store : SessionStore) : Session :=
  (storeGet store sid).getD (mkSession "" "" "")

/-- The progress values of session `sid` along a run's trace. -/
def progressTrace (q sid : String) (tsf : Nat → String)
    (outcome : PipelineOutcome) (store : SessionStore) : List Int :=
  (runTrace q sid tsf outcome store).map fun s => (sessionAt sid s).progress

/-- The output-log values of session `sid` along a run's trace. -/
def logTrace (q sid : String) (tsf : Nat → String)
    (outcome : PipelineOutcome) (store : SessionStore) : List String :=
  (runTrace q sid tsf outcome store).map fun s => (sessionAt sid s).output_log

/-- `appendsTo a b`: `b` extends `a` on the right (`a` is an initial
segment of `b`). -/
def appendsTo (a b : String) : Prop := ∃ t, b = a ++ t

/-- The effect of one `Ev` on the session record it targets. -/
def applySess (ev : Ev) (s : Session) : Session :=
  match ev with
  | .setRunning => { s with status := "running" }
  | .progressEv ts p step msg =>
    { s with progress := p, current_step := step, message := msg,
             updated_at := ts,
             output_log :=
               s.output_log ++ "[" ++ ts ++ "] " ++ (step ++ ": " ++ msg) ++ "\n" }
  | .logEv ts msg =>
    { s with output_log := s.output_log ++ "[" ++ ts ++ "] " ++ msg ++ "\n" }
  | .finishEv ts st p step msg res =>
    { s with status := st, progress := p, current_step := step,
             message := msg, result := some res, completed_at := some ts }

/-- The session-level trace of one run: the record under `sid` after
each prefix of the mutation list. -/
def sessTrace (q : String) (tsf : Nat → String) (outcome : PipelineOutcome)
    (sess : Session) : List Session :=
  (runEvents q tsf outcome).scanl (fun s ev => applySess ev s) sess

/-! ## Store lemmas -/

theorem storeGet_storeUpdate_self (store : SessionStore) (sid : String)
    (f : Session → Session) :
    storeGet (storeUpdate store sid f) sid = (storeGet store sid).map f := by
  induction store with
  | nil => rfl
  | cons p rest ih =>
    obtain ⟨k, v⟩ := p
    by_cases h : k = sid
    · subst h
      simp [storeUpdate, storeGet]
    · simp [storeUpdate, storeGet, h, ih]

theorem storeGet_log_to_session (store : SessionStore) (sid msg ts : String)
    (sess : Session) (h : storeGet store sid = some sess) :
    storeGet (log_to_session store sid msg ts) sid =
      some { sess with
             output_log := sess.output_log ++ "[" ++ ts ++ "] " ++ msg ++ "\n" } := by
  simp [log_to_session, h, storeGet_storeUpdate_self]

theorem storeGet_update_session_progress (store : SessionStore) (sid : String)
    (p : Int) (step msg ts : String) (sess : Session)
    (h : storeGet store sid = some sess) :
    storeGet (update_session_progress store sid p step msg ts) sid =
      some { sess with
             progress := p, current_step := step, message := msg,
             updated_at := ts,
             output_log :=
               sess.output_log ++ "[" ++ ts ++ "] " ++ (step ++ ": " ++ msg) ++ "\n" } := by
  have h1 : storeGet (storeUpdate store sid fun s =>
      { s with progress := p, current_step := step, message := msg,
               updated_at := ts }) sid =
      some { sess with progress := p, current_step := step, message := msg,
                       updated_at := ts } := by
    simp [storeGet_storeUpdate_self, h]
  simp [update_session_progress, h]
  rw [storeGet_log_to_session _ _ _ _ _ h1]

theorem storeGet_applyEv (store : SessionStore) (sid : String) (ev : Ev)
    (sess : Session) (h : storeGet store sid = some sess) :
    storeGet (applyEv sid store ev) sid = some (applySess ev sess) := by
  cases ev with
  | setRunning => simp [applyEv, applySess, storeGet_storeUpdate_self, h]
  | progressEv ts p step msg =>
    simpa [applyEv, applySess] using
      storeGet_update_session_progress store sid p step msg ts sess h
  | logEv ts msg =>
    simpa [applyEv, applySess] using storeGet_log_to_session store sid msg ts sess h
  | finishEv ts st p step msg res =>
    simp [applyEv, applySess, storeGet_storeUpdate_self, h]

theorem sessionAt_scanl (sid : String) (evs : List Ev) :
    ∀ (store : SessionStore) (sess : Session),
      storeGet store sid = some sess →
      (evs.scanl (applyEv sid) store).map (sessionAt sid) =
        evs.scanl (fun s ev => applySess ev s) sess := by
  induction evs with
  | nil =>
    intro store sess h
    simp [List.scanl, sessionAt, h]
  | cons ev rest ih =>
    intro store sess h
    simp only [List.scanl, List.map_cons]
    rw [ih (applyEv sid store ev) (applySess ev sess) (storeGet_applyEv _ _ _ _ h)]
    simp [sessionAt, h]

/-- The store trace of a run, viewed at `sid`, is the session trace. -/
theorem runTrace_view (q sid : String) (tsf : Nat → String)
    (outcome : PipelineOutcome) (store : SessionStore) (sess : Session)
    (h : storeGet store sid = some sess) :
    (runTrace q sid tsf outcome store).map (sessionAt sid) =
      sessTrace q tsf outcome sess :=
  sessionAt_scanl sid (runEvents q tsf outcome) store sess h

/-- The final store of a run, viewed at `sid`. -/
theorem run_final_view (q sid : String) (tsf : Nat → String)
    (outcome : PipelineOutcome) (store : SessionStore) (sess : Session)
    (h : storeGet store sid = some sess) :
    storeGet (run_research_with_tracking q sid tsf outcome store) sid =
      some ((runEvents q tsf outcome).foldl (fun s ev => applySess ev s) sess) := by
  unfold run_research_with_tracking
  induction (runEvents q tsf outcome) generalizing store sess with
  | nil => simpa using h
  | cons ev rest ih =>
    simp only [List.foldl]
    exact ih (applyEv sid store ev) (applySess ev sess) (storeGet_applyEv _ _ _ _ h)

/-! ## Generic trace lemmas -/

theorem scanl_all {α β : Type} (f : β → α → β) (P : β → Prop) :
    ∀ (l : List α) (b : β), P b → (∀ x ∈ l, ∀ s, P s → P (f s x)) →
      ∀ s ∈ l.scanl f b, P s := by
  intro l
  induction l with
  | nil =>
    intro b hb _ s hs
    simp [List.scanl_nil] at hs
    exact hs ▸ hb
  | cons x xs ih =>
    intro b hb hstep s hs
    rw [List.scanl_cons] at hs
    rcases List.mem_append.mp hs with h1 | h2
    · simp at h1
      exact h1 ▸ hb
    · exact ih (f b x) (hstep x (List.mem_cons_self x xs) b hb)
        (fun y hy => hstep y (List.mem_cons_of_mem x hy)) s h2

theorem scanl_chain_of_step {α β : Type} (f : β → α → β) (R : β → β → Prop)
    (hstep : ∀ x s, R s (f s x)) :
    ∀ (l : List α) (b : β), List.Chain' R (l.scanl f b) := by
  intro l
  induction l with
  | nil => intro b; simp [List.scanl_nil]
  | cons x xs ih =>
    intro b
    rw [List.scanl_cons]
    have hne : ∀ (b' : β), (xs.scanl f b').head? = some b' := by
      intro b'; cases xs <;> simp [List.scanl_nil, List.scanl_cons]
    rw [List.singleton_append, List.chain'_cons']
    exact ⟨fun y hy => by rw [hne (f b x)] at hy; exact (Option.some_inj.mp hy) ▸ hstep x b,
           ih (f b x)⟩

/-- The lifecycle invariant of claim C1: the result is set exactly on
the terminal statuses. -/
def LifecycleInv (s : Session) : Prop :=
  (s.result = none ∧ (s.status = "started" ∨ s.status = "running")) ∨
  (s.result ≠ none ∧ s.status ∈ terminalStatuses)

theorem lifecycleInv_progress (s : Session) (hs : LifecycleInv s)
    (ts : String) (p : Int) (step msg : String) :
    LifecycleInv (applySess (.progressEv ts p step msg) s) := by
  rcases hs with ⟨h1, h2⟩ | ⟨h1, h2⟩
  · exact Or.inl ⟨h1, h2⟩
  · exact Or.inr ⟨h1, h2⟩

theorem lifecycleInv_log (s : Session) (hs : LifecycleInv s) (ts msg : String) :
    LifecycleInv (applySess (.logEv ts msg) s) := by
  rcases hs with ⟨h1, h2⟩ | ⟨h1, h2⟩
  · exact Or.inl ⟨h1, h2⟩
  · exact Or.inr ⟨h1, h2⟩

theorem lifecycleInv_finish (s : Session) (ts st : String) (p : Int)
    (step msg res : String) (hst : st ∈ terminalStatuses) :
    LifecycleInv (applySess (.finishEv ts st p step msg res) s) :=
  Or.inr ⟨by simp [applySess], by simpa [applySess] using hst⟩

/-- Events that preserve the lifecycle invariant from any state:
everything except `setRunning` (which only ever occurs first), with
terminal-status finishes. -/
def tameEv : Ev → Prop
  | .setRunning => False
  | .finishEv _ st _ _ _ _ => st ∈ terminalStatuses
  | _ => True

theorem lifecycleInv_tame (ev : Ev) (htame : tameEv ev) (s : Session)
    (hs : LifecycleInv s) : LifecycleInv (applySess ev s) := by
  cases ev with
  | setRunning => exact absurd htame id
  | progressEv ts p step msg => exact lifecycleInv_progress s hs ts p step msg
  | logEv ts msg => exact lifecycleInv_log s hs ts msg
  | finishEv ts st p step msg res => exact lifecycleInv_finish s ts st p step msg res htame

theorem trace_inv_of_tame (evs : List Ev) (htame : ∀ ev ∈ evs, tameEv ev)
    (sess : Session) (hsess : LifecycleInv sess) :
    ∀ s ∈ evs.scanl (fun s ev => applySess ev s) sess, LifecycleInv s :=
  scanl_all _ LifecycleInv evs sess hsess
    fun x hx s' hs' => lifecycleInv_tame x (htame x hx) s' hs'

theorem trace_inv_of_head_setRunning (rest : List Ev)
    (htame : ∀ ev ∈ rest, tameEv ev) (sess : Session)
    (hstat : sess.status = "started") (hres : sess.result = none) :
    ∀ s ∈ (Ev.setRunning :: rest).scanl (fun s ev => applySess ev s) sess,
      LifecycleInv s := by
  intro s hs
  rw [List.scanl_cons, List.singleton_append] at hs
  rcases List.mem_cons.mp hs with rfl | h2
  · exact Or.inl ⟨hres, Or.inl hstat⟩
  · refine trace_inv_of_tame rest htame _ ?_ s h2
    exact Or.inl ⟨by simpa [applySess] using hres, Or.inr (by simp [applySess])⟩

/-- The events of every run are `setRunning` first (when present at
all) followed by tame events. -/
theorem sessTrace_lifecycle (q : String) (tsf : Nat → String)
    (outcome : PipelineOutcome) (sess : Session)
    (hstat : sess.status = "started") (hres : sess.result = none) :
    ∀ s ∈ sessTrace q tsf outcome sess, LifecycleInv s := by
  unfold sessTrace
  cases outcome with
  | returns fs =>
    have hsplit : runEvents q tsf (.returns fs) =
        Ev.setRunning ::
          ([ Ev.progressEv (tsf 0) 5 "initializing" "Starting research process...",
             Ev.logEv (tsf 1) ("🚀 Starting multi-source research for: '" ++ q ++ "'") ] ++
            graphEvents tsf ++ finishEvents tsf fs) := by
      simp [runEvents, startEvents]
    rw [hsplit]
    apply trace_inv_of_head_setRunning _ _ _ hstat hres
    intro ev hev
    rcases hfa : hasFinalAnswer fs with _ | a <;>
      simp [graphEvents, finishEvents, hfa] at hev <;>
      rcases hev with rfl | rfl | rfl | rfl | rfl | rfl <;>
      simp [tameEv, terminalStatuses]
  | timedOut started =>
    have hsplit : runEvents q tsf (.timedOut started) =
        Ev.setRunning ::
          ([ Ev.progressEv (tsf 0) 5 "initializing" "Starting research process...",
             Ev.logEv (tsf 1) ("🚀 Starting multi-source research for: '" ++ q ++ "'") ] ++
            (if started then graphEvents tsf else []) ++ timeoutEvents tsf) := by
      simp [runEvents, startEvents]
    rw [hsplit]
    apply trace_inv_of_head_setRunning _ _ _ hstat hres
    intro ev hev
    cases started <;>
      simp [graphEvents, timeoutEvents] at hev <;>
      rcases hev with rfl | rfl | rfl | rfl | rfl | rfl <;>
      simp [tameEv, terminalStatuses]
  | raises k msg =>
    cases k with
    | zero =>
      have hsplit : runEvents q tsf (.raises 0 msg) = errorEvents tsf msg := by
        simp [runEvents]
      rw [hsplit]
      apply trace_inv_of_tame _ _ _ (Or.inl ⟨hres, Or.inl hstat⟩)
      intro ev hev
      simp [errorEvents] at hev
      rcases hev with rfl | rfl <;> simp [tameEv, terminalStatuses]
    | succ k =>
      have hsplit : runEvents q tsf (.raises (k + 1) msg) =
          Ev.setRunning ::
            (([ Ev.progressEv (tsf 0) 5 "initializing" "Starting research process...",
                Ev.logEv (tsf 1) ("🚀 Starting multi-source research for: '" ++ q ++ "'") ] ++
              graphEvents tsf).take k ++ errorEvents tsf msg) := by
        simp [runEvents, startEvents, graphEvents, List.take_cons]
      rw [hsplit]
      apply trace_inv_of_head_setRunning _ _ _ hstat hres
      intro ev hev
      rcases List.mem_append.mp hev with h1 | h2
      · have h1' := List.take_subset _ _ h1
        simp [graphEvents] at h1'
        rcases h1' with rfl | rfl | rfl | rfl <;> simp [tameEv]
      · simp [errorEvents] at h2
        rcases h2 with rfl | rfl <;> simp [tameEv, terminalStatuses]

theorem foldl_mem_scanl {α β : Type} (f : β → α → β) :
    ∀ (l : List α) (b : β), l.foldl f b ∈ l.scanl f b := by
  intro l
  induction l with
  | nil => intro b; simp [List.scanl_nil]
  | cons x xs ih =>
    intro b
    rw [List.scanl_cons, List.foldl_cons]
    exact List.mem_append_right _ (ih (f b x))

/-- C1: for every job in the session store, `result` is non-null iff
the status is terminal: `start_search` creates the job with result
`None` and status `"started"`, the result stays `None` in the
`"started"`/`"running"` phases, and every terminal transition of
`run_research_with_tracking` sets a non-null result. -/
theorem result_present_iff_terminal (q sid ts : String) (tsf : Nat → String)
    (outcome : PipelineOutcome) (store : SessionStore) (sess : Session)
    (h : storeGet store sid = some sess)
    (hstat : sess.status = "started") (hres : sess.result = none) :
    ((mkSession q sid ts).result = none ∧ (mkSession q sid ts).status = "started") ∧
    ∀ st ∈ runTrace q sid tsf outcome store,
      ((sessionAt sid st).result ≠ none ↔
        (sessionAt sid st).status ∈ terminalStatuses) := by
  refine ⟨⟨rfl, rfl⟩, ?_⟩
  intro st hst
  have hmem : sessionAt sid st ∈ sessTrace q tsf outcome sess := by
    rw [← runTrace_view q sid tsf outcome store sess h]
    exact List.mem_map_of_mem _ hst
  have hinv := sessTrace_lifecycle q tsf outcome sess hstat hres _ hmem
  rcases hinv with ⟨h1, h2⟩ | ⟨h1, h2⟩
  · constructor
    · intro hc; exact absurd h1 hc
    · intro hc
      rcases h2 with h2 | h2 <;> rw [h2] at hc <;>
        simp [terminalStatuses] at hc
  · exact ⟨fun _ => h2, fun _ => h1⟩

/-- Witness for C1 at a concrete run (empty pipeline state, one job). -/
theorem result_present_iff_terminal_witness :
    (sessionAt "s" (run_research_with_tracking "q" "s" (fun _ => "t")
        (.returns none) [("s", mkSession "q" "s" "t")])).result ≠ none ↔
    (sessionAt "s" (run_research_with_tracking "q" "s" (fun _ => "t")
        (.returns none) [("s", mkSession "q" "s" "t")])).status ∈
      terminalStatuses :=
  (result_present_iff_terminal "q" "s" "t" (fun _ => "t") (.returns none)
      [("s", mkSession "q" "s" "t")] (mkSession "q" "s" "t") rfl rfl rfl).2 _
    (by
      have hm := foldl_mem_scanl (applyEv "s")
        (runEvents "q" (fun _ => "t") (.returns none))
        [("s", mkSession "q" "s" "t")]
      simpa [runTrace, run_research_with_tracking] using hm)

theorem appendsTo_trans (a b c : String) (h1 : appendsTo a b) (h2 : appendsTo b c) :
    appendsTo a c := by
  obtain ⟨t1, rfl⟩ := h1
  obtain ⟨t2, rfl⟩ := h2
  exact ⟨t1 ++ t2, String.append_assoc a t1 t2⟩

theorem applySess_output_log_appendsTo (ev : Ev) (s : Session) :
    appendsTo s.output_log (applySess ev s).output_log := by
  cases ev with
  | setRunning => exact ⟨"", by simp [applySess]⟩
  | progressEv ts p step msg =>
    exact ⟨"[" ++ ts ++ "] " ++ (step ++ ": " ++ msg) ++ "\n",
      by simp [applySess, String.append_assoc]⟩
  | logEv ts msg =>
    exact ⟨"[" ++ ts ++ "] " ++ msg ++ "\n",
      by simp [applySess, String.append_assoc]⟩
  | finishEv ts st p step msg res => exact ⟨"", by simp [applySess]⟩

theorem logTrace_view (q sid : String) (tsf : Nat → String)
    (outcome : PipelineOutcome) (store : SessionStore) (sess : Session)
    (h : storeGet store sid = some sess) :
    logTrace q sid tsf outcome store =
      (sessTrace q tsf outcome sess).map (·.output_log) := by
  unfold logTrace
  rw [← runTrace_view q sid tsf outcome store sess h, List.map_map]
  rfl

/-- C9: the output log is append-only: `log_to_session` only
concatenates one timestamped line, and along the whole trace of a run
every earlier log value is an initial segment of every later one, so
the log length is non-decreasing. -/
theorem output_log_append_only (q sid msg ts : String) (tsf : Nat → String)
    (outcome : PipelineOutcome) (store : SessionStore) (sess : Session)
    (h : storeGet store sid = some sess) :
    (storeGet (log_to_session store sid msg ts) sid =
      some { sess with output_log :=
               sess.output_log ++ "[" ++ ts ++ "] " ++ msg ++ "\n" }) ∧
    (logTrace q sid tsf outcome store).Pairwise appendsTo ∧
    (logTrace q sid tsf outcome store).Pairwise
      (fun a b => a.length ≤ b.length) := by
  refine ⟨storeGet_log_to_session store sid msg ts sess h, ?_⟩
  have hchain : (logTrace q sid tsf outcome store).Chain' appendsTo := by
    rw [logTrace_view q sid tsf outcome store sess h]
    rw [List.chain'_map]
    exact scanl_chain_of_step _ _
      (fun ev s => applySess_output_log_appendsTo ev s)
      (runEvents q tsf outcome) sess
  haveI : IsTrans String appendsTo :=
    ⟨fun a b c h1 h2 => appendsTo_trans a b c h1 h2⟩
  have hpw : (logTrace q sid tsf outcome store).Pairwise appendsTo :=
    List.chain'_iff_pairwise.mp hchain
  refine ⟨hpw, hpw.imp ?_⟩
  intro a b hab
  obtain ⟨t, rfl⟩ := hab
  simp [String.length_append]

/-- Witness for C9 at a concrete run. -/
theorem output_log_append_only_witness :
    (storeGet (log_to_session [("s", mkSession "q" "s" "t")] "s" "hello" "t") "s" =
      some { mkSession "q" "s" "t" with
             output_log := (mkSession "q" "s" "t").output_log ++
               "[" ++ "t" ++ "] " ++ "hello" ++ "\n" }) ∧
    (logTrace "q" "s" (fun _ => "t") (.timedOut true)
      [("s", mkSession "q" "s" "t")]).Pairwise appendsTo ∧
    (logTrace "q" "s" (fun _ => "t") (.timedOut true)
      [("s", mkSession "q" "s" "t")]).Pairwise
      (fun a b => a.length ≤ b.length) :=
  output_log_append_only "q" "s" "hello" "t" (fun _ => "t") (.timedOut true)
    [("s", mkSession "q" "s" "t")] (mkSession "q" "s" "t") rfl

/-- `hasFinalAnswer` accepts exactly a truthy state with a non-empty
`final_answer` string. -/
theorem hasFinalAnswer_iff (fs : Option PipelineState) (a : String) :
    hasFinalAnswer fs = some a ↔
      ∃ st, fs = some st ∧ st.truthy = true ∧ st.final_answer = some a ∧
        a ≠ "" := by
  cases fs with
  | none => simp [hasFinalAnswer]
  | some st =>
    cases hT : st.truthy with
    | false => simp [hasFinalAnswer, hT]
    | true =>
      cases hA : st.final_answer with
      | none => simp [hasFinalAnswer, hT, hA]
      | some b =>
        by_cases hb : b = ""
        · subst hb
          simp [hasFinalAnswer, hT, hA]
          intro hcontra
          exact hcontra.symm
        · simp only [hasFinalAnswer, hT, hA, if_true, if_neg hb]
          constructor
          · intro hsome
            have hba := Option.some_inj.mp hsome
            subst hba
            exact ⟨st, rfl, hT, hA, hb⟩
          · rintro ⟨st', hst, _, hfa, _⟩
            have : st = st' := Option.some_inj.mp hst
            subst this
            rw [hA] at hfa
            rw [Option.some_inj.mp hfa]

/-- The final session of a run, at the session level. -/
def runFinalSession (q : String) (tsf : Nat → String)
    (outcome : PipelineOutcome) (sess : Session) : Session :=
  (runEvents q tsf outcome).foldl (fun s ev => applySess ev s) sess

theorem sessionAt_run_final (q sid : String) (tsf : Nat → String)
    (outcome : PipelineOutcome) (store : SessionStore) (sess : Session)
    (h : storeGet store sid = some sess) :
    sessionAt sid (run_research_with_tracking q sid tsf outcome store) =
      runFinalSession q tsf outcome sess := by
  unfold sessionAt runFinalSession
  rw [run_final_view q sid tsf outcome store sess h]
  rfl

theorem runFinal_completed (q : String) (tsf : Nat → String)
    (fs : Option PipelineState) (sess : Session) (a : String)
    (hfa : hasFinalAnswer fs = some a) :
    (runFinalSession q tsf (.returns fs) sess).status = "completed" ∧
    (runFinalSession q tsf (.returns fs) sess).progress = 100 ∧
    (runFinalSession q tsf (.returns fs) sess).result = some a ∧
    (runFinalSession q tsf (.returns fs) sess).message =
      "Research completed successfully!" := by
  simp [runFinalSession, runEvents, startEvents, graphEvents, finishEvents,
        hfa, applySess]

theorem runFinal_partialSuccess (q : String) (tsf : Nat → String)
    (fs : Option PipelineState) (sess : Session)
    (hfa : hasFinalAnswer fs = none) :
    (runFinalSession q tsf (.returns fs) sess).status = "partial_success" ∧
    (runFinalSession q tsf (.returns fs) sess).progress = 90 ∧
    (runFinalSession q tsf (.returns fs) sess).result = some partialResultMsg ∧
    (runFinalSession q tsf (.returns fs) sess).message =
      "Research completed but with some issues" := by
  simp [runFinalSession, runEvents, startEvents, graphEvents, finishEvents,
        hfa, applySess]

theorem runFinal_timeout (q : String) (tsf : Nat → String) (b : Bool)
    (sess : Session) :
    (runFinalSession q tsf (.timedOut b) sess).status = "timeout" ∧
    (runFinalSession q tsf (.timedOut b) sess).progress = 75 ∧
    (runFinalSession q tsf (.timedOut b) sess).result = some timeoutResultMsg ∧
    (runFinalSession q tsf (.timedOut b) sess).message =
      "Research timed out after 7 minutes" := by
  cases b <;>
    simp [runFinalSession, runEvents, startEvents, graphEvents, timeoutEvents,
          applySess]

theorem runFinal_error (q : String) (tsf : Nat → String) (k : Nat)
    (m : String) (sess : Session) :
    (runFinalSession q tsf (.raises k m) sess).status = "error" ∧
    (runFinalSession q tsf (.raises k m) sess).progress = 0 ∧
    (runFinalSession q tsf (.raises k m) sess).result =
      some (errorResultLead ++ m) ∧
    (runFinalSession q tsf (.raises k m) sess).message =
      "Error occurred: " ++ m := by
  unfold runFinalSession runEvents
  rw [List.foldl_append]
  simp [errorEvents, applySess]

/-- C3: the background run classifies every pipeline outcome into
exactly one terminal state: a truthy final state carrying a non-empty
`final_answer` gives `completed`/100 with that answer as the result; a
returned state without one gives `partial_success`/90 with an
explanatory message; exceeding the 7-minute (420-second) budget gives
`timeout`/75; an uncaught failure gives `error`/0 with the failure
description in the message. -/
theorem run_outcome_classification (q sid : String) (tsf : Nat → String)
    (outcome : PipelineOutcome) (store : SessionStore) (sess : Session)
    (h : storeGet store sid = some sess) :
    (∀ fs a, hasFinalAnswer fs = some a ↔
      ∃ st, fs = some st ∧ st.truthy = true ∧ st.final_answer = some a ∧
        a ≠ "") ∧
    (∀ fs a, outcome = .returns fs → hasFinalAnswer fs = some a →
      (sessionAt sid (run_research_with_tracking q sid tsf outcome store)).status =
          "completed" ∧
      (sessionAt sid (run_research_with_tracking q sid tsf outcome store)).progress =
          100 ∧
      (sessionAt sid (run_research_with_tracking q sid tsf outcome store)).result =
          some a) ∧
    (∀ fs, outcome = .returns fs → hasFinalAnswer fs = none →
      (sessionAt sid (run_research_with_tracking q sid tsf outcome store)).status =
          "partial_success" ∧
      (sessionAt sid (run_research_with_tracking q sid tsf outcome store)).progress =
          90 ∧
      (sessionAt sid (run_research_with_tracking q sid tsf outcome store)).result =
          some partialResultMsg) ∧
    (∀ b, outcome = .timedOut b →
      (sessionAt sid (run_research_with_tracking q sid tsf outcome store)).status =
          "timeout" ∧
      (sessionAt sid (run_research_with_tracking q sid tsf outcome store)).progress =
          75 ∧
      (sessionAt sid (run_research_with_tracking q sid tsf outcome store)).result =
          some timeoutResultMsg) ∧
    (∀ k m, outcome = .raises k m →
      (sessionAt sid (run_research_with_tracking q sid tsf outcome store)).status =
          "error" ∧
      (sessionAt sid (run_research_with_tracking q sid tsf outcome store)).progress =
          0 ∧
      (sessionAt sid (run_research_with_tracking q sid tsf outcome store)).result =
          some (errorResultLead ++ m) ∧
      (sessionAt sid (run_research_with_tracking q sid tsf outcome store)).message =
          "Error occurred: " ++ m) ∧
    RESEARCH_TIMEOUT_SECONDS = 420 := by
  have hfin := sessionAt_run_final q sid tsf outcome store sess h
  refine ⟨hasFinalAnswer_iff, ?_, ?_, ?_, ?_, rfl⟩
  · rintro fs a rfl hfa
    rw [hfin]
    have hc := runFinal_completed q tsf fs sess a hfa
    exact ⟨hc.1, hc.2.1, hc.2.2.1⟩
  · rintro fs rfl hfa
    rw [hfin]
    have hc := runFinal_partialSuccess q tsf fs sess hfa
    exact ⟨hc.1, hc.2.1, hc.2.2.1⟩
  · rintro b rfl
    rw [hfin]
    have hc := runFinal_timeout q tsf b sess
    exact ⟨hc.1, hc.2.1, hc.2.2.1⟩
  · rintro k m rfl
    rw [hfin]
    have hc := runFinal_error q tsf k m sess
    exact ⟨hc.1, hc.2.1, hc.2.2.1, hc.2.2.2⟩

/-- Witness for C3 at a concrete timed-out run. -/
theorem run_outcome_classification_witness :
    (sessionAt "s" (run_research_with_tracking "q" "s" (fun _ => "t")
        (.timedOut false) [("s", mkSession "q" "s" "t")])).status = "timeout" ∧
    (sessionAt "s" (run_research_with_tracking "q" "s" (fun _ => "t")
        (.timedOut false) [("s", mkSession "q" "s" "t")])).progress = 75 ∧
    (sessionAt "s" (run_research_with_tracking "q" "s" (fun _ => "t")
        (.timedOut false) [("s", mkSession "q" "s" "t")])).result =
      some timeoutResultMsg :=
  (run_outcome_classification "q" "s" (fun _ => "t") (.timedOut false)
      [("s", mkSession "q" "s" "t")] (mkSession "q" "s" "t") rfl).2.2.2.1
    false rfl

/-- C4 counterexample: two jobs that both end in status `"error"` carry
different result strings (the fault description is embedded), so the
error result is not one fixed string independent of the fault. -/
theorem error_result_not_fixed :
    (sessionAt "s" (run_research_with_tracking "q" "s" (fun _ => "t")
        (.raises 5 "boom") [("s", mkSession "q" "s" "t")])).status = "error" ∧
    (sessionAt "s" (run_research_with_tracking "q" "s" (fun _ => "t")
        (.raises 5 "crash") [("s", mkSession "q" "s" "t")])).status = "error" ∧
    (sessionAt "s" (run_research_with_tracking "q" "s" (fun _ => "t")
        (.raises 5 "boom") [("s", mkSession "q" "s" "t")])).result ≠
      (sessionAt "s" (run_research_with_tracking "q" "s" (fun _ => "t")
        (.raises 5 "crash") [("s", mkSession "q" "s" "t")])).result := by
  have h1 := sessionAt_run_final "q" "s" (fun _ => "t") (.raises 5 "boom")
    [("s", mkSession "q" "s" "t")] (mkSession "q" "s" "t") rfl
  have h2 := sessionAt_run_final "q" "s" (fun _ => "t") (.raises 5 "crash")
    [("s", mkSession "q" "s" "t")] (mkSession "q" "s" "t") rfl
  refine ⟨?_, ?_, ?_⟩
  · rw [h1]
    exact (runFinal_error "q" (fun _ => "t") 5 "boom" (mkSession "q" "s" "t")).1
  · rw [h2]
    exact (runFinal_error "q" (fun _ => "t") 5 "crash" (mkSession "q" "s" "t")).1
  · rw [h1, h2,
        (runFinal_error "q" (fun _ => "t") 5 "boom" (mkSession "q" "s" "t")).2.2.1,
        (runFinal_error "q" (fun _ => "t") 5 "crash" (mkSession "q" "s" "t")).2.2.1]
    decide

/-- C4 amended: on `completed` and `partial_success` the result is a
non-empty string; on `timeout` it is one fixed string; on `error` it is
the fixed text "Research failed due to an error: " followed by the
fault description, which varies with the fault. -/
theorem terminal_result_shape (q sid : String) (tsf : Nat → String)
    (outcome : PipelineOutcome) (store : SessionStore) (sess : Session)
    (h : storeGet store sid = some sess) :
    (∀ fs a, outcome = .returns fs → hasFinalAnswer fs = some a →
      (sessionAt sid (run_research_with_tracking q sid tsf outcome store)).result =
          some a ∧ a ≠ "") ∧
    (∀ fs, outcome = .returns fs → hasFinalAnswer fs = none →
      (sessionAt sid (run_research_with_tracking q sid tsf outcome store)).result =
          some partialResultMsg ∧ partialResultMsg ≠ "") ∧
    (∀ b, outcome = .timedOut b →
      (sessionAt sid (run_research_with_tracking q sid tsf outcome store)).result =
          some timeoutResultMsg) ∧
    (∀ k m, outcome = .raises k m →
      (sessionAt sid (run_research_with_tracking q sid tsf outcome store)).result =
          some (errorResultLead ++ m)) := by
  have hfin := sessionAt_run_final q sid tsf outcome store sess h
  refine ⟨?_, ?_, ?_, ?_⟩
  · rintro fs a rfl hfa
    rw [hfin]
    obtain ⟨st, _, _, _, hne⟩ := (hasFinalAnswer_iff fs a).mp hfa
    exact ⟨(runFinal_completed q tsf fs sess a hfa).2.2.1, hne⟩
  · rintro fs rfl hfa
    rw [hfin]
    refine ⟨(runFinal_partialSuccess q tsf fs sess hfa).2.2.1, by decide⟩
  · rintro b rfl
    rw [hfin]
    exact (runFinal_timeout q tsf b sess).2.2.1
  · rintro k m rfl
    rw [hfin]
    exact (runFinal_error q tsf k m sess).2.2.1

/-- Witness for the amended C4 at a concrete completed run. -/
theorem terminal_result_shape_witness :
    (sessionAt "s" (run_research_with_tracking "q" "s" (fun _ => "t")
        (.returns (some ⟨true, some "answer"⟩))
        [("s", mkSession "q" "s" "t")])).result = some "answer" ∧
    "answer" ≠ "" :=
  (terminal_result_shape "q" "s" (fun _ => "t")
      (.returns (some ⟨true, some "answer"⟩)) [("s", mkSession "q" "s" "t")]
      (mkSession "q" "s" "t") rfl).1 (some ⟨true, some "answer"⟩) "answer" rfl
    rfl

theorem progressTrace_view (q sid : String) (tsf : Nat → String)
    (outcome : PipelineOutcome) (store : SessionStore) (sess : Session)
    (h : storeGet store sid = some sess) :
    progressTrace q sid tsf outcome store =
      (sessTrace q tsf outcome sess).map (·.progress) := by
  unfold progressTrace
  rw [← runTrace_view q sid tsf outcome store sess h, List.map_map]
  rfl

/-- C2 counterexample: in a run where the pipeline raises (here after
all five tracking steps, i.e. `graph.invoke` itself fails), the
progress sequence is 0,0,5,5,5,10,10,0 — the error transition resets
progress from 10 to 0, so progress is not monotonically
non-decreasing. -/
theorem progress_not_monotone :
    ¬ (progressTrace "q" "s" (fun _ => "t") (.raises 5 "boom")
        [("s", mkSession "q" "s" "t")]).Chain' (fun a b => a ≤ b) := by
  have hl : progressTrace "q" "s" (fun _ => "t") (.raises 5 "boom")
      [("s", mkSession "q" "s" "t")] = [0, 0, 5, 5, 5, 10, 10, 0] := by rfl
  rw [hl]
  simp [List.chain'_cons]

/-- C2 amended: along a run's trace, progress stays within 0–100 and is
monotonically non-decreasing except for the error transition, which
resets it to 0; at the end of the run progress matches the terminal
status: completed=100, partial_success=90, timeout=75, error=0. -/
theorem progress_monotone_except_error (q sid : String) (tsf : Nat → String)
    (outcome : PipelineOutcome) (store : SessionStore) (sess : Session)
    (h : storeGet store sid = some sess) (hprog : sess.progress = 0) :
    ((∀ k m, outcome ≠ .raises k m) →
      (progressTrace q sid tsf outcome store).Chain' (fun a b => a ≤ b)) ∧
    (progressTrace q sid tsf outcome store).Chain'
      (fun a b => a ≤ b ∨ b = 0) ∧
    (∀ p ∈ progressTrace q sid tsf outcome store, 0 ≤ p ∧ p ≤ 100) ∧
    ((sessionAt sid (run_research_with_tracking q sid tsf outcome store)).status =
        "completed" ∧
      (sessionAt sid (run_research_with_tracking q sid tsf outcome store)).progress =
        100 ∨
     (sessionAt sid (run_research_with_tracking q sid tsf outcome store)).status =
        "partial_success" ∧
      (sessionAt sid (run_research_with_tracking q sid tsf outcome store)).progress =
        90 ∨
     (sessionAt sid (run_research_with_tracking q sid tsf outcome store)).status =
        "timeout" ∧
      (sessionAt sid (run_research_with_tracking q sid tsf outcome store)).progress =
        75 ∨
     (sessionAt sid (run_research_with_tracking q sid tsf outcome store)).status =
        "error" ∧
      (sessionAt sid (run_research_with_tracking q sid tsf outcome store)).progress =
        0) := by
  have hview := progressTrace_view q sid tsf outcome store sess h
  have hfin := sessionAt_run_final q sid tsf outcome store sess h
  cases outcome with
  | returns fs =>
    rcases hfa : hasFinalAnswer fs with _ | a
    · have hl : progressTrace q sid tsf (.returns fs) store =
          [0, 0, 5, 5, 5, 10, 90, 90] := by
        rw [hview]
        simp [sessTrace, runEvents, startEvents, graphEvents, finishEvents,
              hfa, applySess, List.scanl, hprog]
      have hp := runFinal_partialSuccess q tsf fs sess hfa
      refine ⟨fun _ => ?_, ?_, ?_, ?_⟩
      · rw [hl]; simp [List.chain'_cons]
      · rw [hl]; simp [List.chain'_cons]
      · rw [hl]; simp
      · rw [hfin]; exact Or.inr (Or.inl ⟨hp.1, hp.2.1⟩)
    · have hl : progressTrace q sid tsf (.returns fs) store =
          [0, 0, 5, 5, 5, 10, 100, 100] := by
        rw [hview]
        simp [sessTrace, runEvents, startEvents, graphEvents, finishEvents,
              hfa, applySess, List.scanl, hprog]
      have hp := runFinal_completed q tsf fs sess a hfa
      refine ⟨fun _ => ?_, ?_, ?_, ?_⟩
      · rw [hl]; simp [List.chain'_cons]
      · rw [hl]; simp [List.chain'_cons]
      · rw [hl]; simp
      · rw [hfin]; exact Or.inl ⟨hp.1, hp.2.1⟩
  | timedOut started =>
    have hp := runFinal_timeout q tsf started sess
    cases started with
    | false =>
      have hl : progressTrace q sid tsf (.timedOut false) store =
          [0, 0, 5, 5, 75, 75] := by
        rw [hview]
        simp [sessTrace, runEvents, startEvents, graphEvents, timeoutEvents,
              applySess, List.scanl, hprog]
      refine ⟨fun _ => ?_, ?_, ?_, ?_⟩
      · rw [hl]; simp [List.chain'_cons]
      · rw [hl]; simp [List.chain'_cons]
      · rw [hl]; simp
      · rw [hfin]; exact Or.inr (Or.inr (Or.inl ⟨hp.1, hp.2.1⟩))
    | true =>
      have hl : progressTrace q sid tsf (.timedOut true) store =
          [0, 0, 5, 5, 5, 10, 75, 75] := by
        rw [hview]
        simp [sessTrace, runEvents, startEvents, graphEvents, timeoutEvents,
              applySess, List.scanl, hprog]
      refine ⟨fun _ => ?_, ?_, ?_, ?_⟩
      · rw [hl]; simp [List.chain'_cons]
      · rw [hl]; simp [List.chain'_cons]
      · rw [hl]; simp
      · rw [hfin]; exact Or.inr (Or.inr (Or.inl ⟨hp.1, hp.2.1⟩))
  | raises k msg =>
    have hp := runFinal_error q tsf k msg sess
    have hfinpart :
        (sessionAt sid (run_research_with_tracking q sid tsf (.raises k msg)
            store)).status = "error" ∧
        (sessionAt sid (run_research_with_tracking q sid tsf (.raises k msg)
            store)).progress = 0 := by
      rw [hfin]; exact ⟨hp.1, hp.2.1⟩
    obtain _ | _ | _ | _ | _ | k := k
    · have hl : progressTrace q sid tsf (.raises 0 msg) store = [0, 0, 0] := by
        rw [hview]
        simp [sessTrace, runEvents, startEvents, graphEvents, errorEvents,
              applySess, List.scanl, hprog]
      exact ⟨fun hno => absurd rfl (hno 0 msg),
        by rw [hl]; simp [List.chain'_cons], by rw [hl]; simp,
        Or.inr (Or.inr (Or.inr hfinpart))⟩
    · have hl : progressTrace q sid tsf (.raises 1 msg) store =
          [0, 0, 0, 0] := by
        rw [hview]
        simp [sessTrace, runEvents, startEvents, graphEvents, errorEvents,
              applySess, List.scanl, hprog]
      exact ⟨fun hno => absurd rfl (hno 1 msg),
        by rw [hl]; simp [List.chain'_cons], by rw [hl]; simp,
        Or.inr (Or.inr (Or.inr hfinpart))⟩
    · have hl : progressTrace q sid tsf (.raises 2 msg) store =
          [0, 0, 5, 5, 0] := by
        rw [hview]
        simp [sessTrace, runEvents, startEvents, graphEvents, errorEvents,
              applySess, List.scanl, hprog]
      exact ⟨fun hno => absurd rfl (hno 2 msg),
        by rw [hl]; simp [List.chain'_cons], by rw [hl]; simp,
        Or.inr (Or.inr (Or.inr hfinpart))⟩
    · have hl : progressTrace q sid tsf (.raises 3 msg) store =
          [0, 0, 5, 5, 5, 0] := by
        rw [hview]
        simp [sessTrace, runEvents, startEvents, graphEvents, errorEvents,
              applySess, List.scanl, hprog]
      exact ⟨fun hno => absurd rfl (hno 3 msg),
        by rw [hl]; simp [List.chain'_cons], by rw [hl]; simp,
        Or.inr (Or.inr (Or.inr hfinpart))⟩
    · have hl : progressTrace q sid tsf (.raises 4 msg) store =
          [0, 0, 5, 5, 5, 5, 0] := by
        rw [hview]
        simp [sessTrace, runEvents, startEvents, graphEvents, errorEvents,
              applySess, List.scanl, hprog]
      exact ⟨fun hno => absurd rfl (hno 4 msg),
        by rw [hl]; simp [List.chain'_cons], by rw [hl]; simp,
        Or.inr (Or.inr (Or.inr hfinpart))⟩
    · have hl : progressTrace q sid tsf (.raises (k + 5) msg) store =
          [0, 0, 5, 5, 5, 10, 10, 0] := by
        rw [hview]
        simp [sessTrace, runEvents, startEvents, graphEvents, errorEvents,
              applySess, List.scanl, hprog, List.take_succ_cons]
      exact ⟨fun hno => absurd rfl (hno (k + 5) msg),
        by rw [hl]; simp [List.chain'_cons], by rw [hl]; simp,
        Or.inr (Or.inr (Or.inr hfinpart))⟩

/-- Witness for the amended C2 at a concrete completed run. -/
theorem progress_monotone_except_error_witness :
    (progressTrace "q" "s" (fun _ => "t")
      (.returns (some ⟨true, some "answer"⟩))
      [("s", mkSession "q" "s" "t")]).Chain' (fun a b => a ≤ b) :=
  (progress_monotone_except_error "q" "s" (fun _ => "t")
      (.returns (some ⟨true, some "answer"⟩)) [("s", mkSession "q" "s" "t")]
      (mkSession "q" "s" "t") rfl rfl).1 (by intro k m hc; cases hc)

theorem storeGet_filter_out (store : SessionStore) (sid : String) :
    storeGet (store.filter fun p => !(p.1 == sid)) sid = none := by
  induction store with
  | nil => rfl
  | cons p rest ih =>
    obtain ⟨k, v⟩ := p
    by_cases h : k = sid
    · subst h
      simpa [List.filter, beq_self_eq_true] using ih
    · have hb : (k == sid) = false := beq_eq_false_iff_ne.mpr h
      simp [List.filter, hb, storeGet, h, ih]

/-- C7: for an id not in the store, the status, output-log and delete
endpoints all answer 404 ("Session not found") and leave the store
unchanged; deleting a stored job removes it, so a subsequent status
request for the same id answers 404. -/
theorem unknown_session_not_found (store : SessionStore) (sid : String) :
    (storeGet store sid = none →
      get_search_status store sid = .error ⟨404, "Session not found"⟩ ∧
      get_output_log store sid = .error ⟨404, "Session not found"⟩ ∧
      delete_session store sid =
        (store, .error ⟨404, "Session not found"⟩)) ∧
    (∀ sess, storeGet store sid = some sess →
      storeGet (delete_session store sid).1 sid = none ∧
      get_search_status (delete_session store sid).1 sid =
        .error ⟨404, "Session not found"⟩) := by
  constructor
  · intro h
    refine ⟨?_, ?_, ?_⟩ <;> simp [get_search_status, get_output_log,
      delete_session, h]
  · intro sess h
    have h1 : (delete_session store sid).1 =
        store.filter fun p => !(p.1 == sid) := by
      simp [delete_session, h]
    rw [h1]
    have h2 := storeGet_filter_out store sid
    exact ⟨h2, by simp [get_search_status, h2]⟩

/-- Witness for C7: an unknown id answers 404 everywhere, and after a
delete the status endpoint answers 404. -/
theorem unknown_session_not_found_witness :
    get_search_status [("a", mkSession "q" "a" "t")] "b" =
      .error ⟨404, "Session not found"⟩ ∧
    get_output_log [("a", mkSession "q" "a" "t")] "b" =
      .error ⟨404, "Session not found"⟩ ∧
    delete_session [("a", mkSession "q" "a" "t")] "b" =
      ([("a", mkSession "q" "a" "t")], .error ⟨404, "Session not found"⟩) ∧
    storeGet (delete_session [("a", mkSession "q" "a" "t")] "a").1 "a" =
      none ∧
    get_search_status (delete_session [("a", mkSession "q" "a" "t")] "a").1
      "a" = .error ⟨404, "Session not found"⟩ := by
  have h1 := (unknown_session_not_found [("a", mkSession "q" "a" "t")] "b").1 rfl
  have h2 := (unknown_session_not_found [("a", mkSession "q" "a" "t")] "a").2
    (mkSession "q" "a" "t") rfl
  exact ⟨h1.1, h1.2.1, h1.2.2, h2.1, h2.2⟩

theorem storeGet_append_fresh (store : SessionStore) (sid : String)
    (sess : Session) (h : storeGet store sid = none) :
    storeGet (store ++ [(sid, sess)]) sid = some sess := by
  induction store with
  | nil => simp [storeGet]
  | cons p rest ih =>
    obtain ⟨k, v⟩ := p
    by_cases hk : k = sid
    · subst hk
      simp [storeGet] at h
    · simp [storeGet, hk] at h ⊢
      exact ih h

/-- C8: for every question string (including empty or whitespace-only
ones), `start_search` creates a fresh record with status "started",
progress 0, null result and empty output log, and answers with the new
session id and status "started"; the endpoint is a total function, so
submission itself never fails. -/
theorem submit_always_starts (store : SessionStore) (question sid ts : String)
    (hfresh : storeGet store sid = none) :
    (start_search store question sid ts).2 =
      ⟨sid, "started", "Research session started successfully"⟩ ∧
    storeGet (start_search store question sid ts).1 sid =
      some (mkSession question sid ts) ∧
    (mkSession question sid ts).status = "started" ∧
    (mkSession question sid ts).progress = 0 ∧
    (mkSession question sid ts).result = none ∧
    (mkSession question sid ts).output_log = "" ∧
    (mkSession question sid ts).question = question := by
  refine ⟨rfl, ?_, rfl, rfl, rfl, rfl, rfl⟩
  simp [start_search, storeSet, hfresh]
  exact storeGet_append_fresh store sid (mkSession question sid ts) hfresh

/-- Witness for C8 with a whitespace-only question. -/
theorem submit_always_starts_witness :
    (start_search [] "   " "s" "t").2 =
      ⟨"s", "started", "Research session started successfully"⟩ ∧
    storeGet (start_search [] "   " "s" "t").1 "s" =
      some (mkSession "   " "s" "t") ∧
    (mkSession "   " "s" "t").status = "started" ∧
    (mkSession "   " "s" "t").progress = 0 ∧
    (mkSession "   " "s" "t").result = none ∧
    (mkSession "   " "s" "t").output_log = "" ∧
    (mkSession "   " "s" "t").question = "   " :=
  submit_always_starts [] "   " "s" "t" rfl

/-- C10: for any engine other than "google" or "bing", `serp_search`
raises `ValueError` before issuing any request (the request log is
empty); the never-raises guarantee does not cover this argument
error. -/
theorem serp_search_unsupported_engine (query engine : String)
    (oracle : String → Option Json)
    (h1 : engine ≠ "google") (h2 : engine ≠ "bing") :
    serp_search query engine oracle =
      ([], .error (.valueError
        "Unsupported search engine. Use 'google' or 'bing'.")) := by
  simp [serp_search, h1, h2]

/-- Witness for C10 with the engine "duckduckgo". -/
theorem serp_search_unsupported_engine_witness :
    serp_search "cars" "duckduckgo" (fun _ => none) =
      ([], .error (.valueError
        "Unsupported search engine. Use 'google' or 'bing'.")) :=
  serp_search_unsupported_engine "cars" "duckduckgo" (fun _ => none)
    (by decide) (by decide)

theorem extracted_data_obj (fields : List (String × Json)) :
    extracted_data (Json.obj fields) =
      .ok ⟨(kvLookup fields "knowledge").getD (Json.obj []),
           (kvLookup fields "organic").getD (Json.arr [])⟩ := by
  simp [extracted_data, jsonGet]
  rfl

theorem serpNormalize_obj (fields : List (String × Json)) :
    extracted_data (Json.obj fields) = .ok (serpNormalize (Json.obj fields)) :=
  extracted_data_obj fields

theorem serpZoneLoop_spec (oracle : String → Option Json)
    (hobj : ∀ z j, oracle z = some j → ∃ fields, j = Json.obj fields) :
    ∀ zones : List String,
      serpZoneLoop oracle zones =
        (requestedZones oracle zones,
         .ok ((firstTruthyJson oracle zones).map serpNormalize)) := by
  intro zones
  induction zones with
  | nil => rfl
  | cons z zs ih =>
    cases hz : oracle z with
    | none => simp [serpZoneLoop, requestedZones, firstTruthyJson, hz, ih]
    | some j =>
      by_cases ht : j.truthy
      · obtain ⟨fields, rfl⟩ := hobj z j hz
        simp [serpZoneLoop, requestedZones, firstTruthyJson, hz, ht,
              serpNormalize_obj, Except.map]
      · simp [serpZoneLoop, requestedZones, firstTruthyJson, hz, ht, ih]

/-- C5 counterexample: with a single zone whose request succeeds but the
parsed payload is the empty (falsy) JSON object, the claim demands the
normalized result of that zone — which normalization would produce
(`.ok ⟨{}, []⟩`) — but `serp_search` skips the zone and returns an
absent result after issuing the request. -/
theorem serp_search_skips_falsy_success :
    (fun z => if z = "ai_agent" then some (Json.obj []) else none) "ai_agent" =
      some (Json.obj []) ∧
    extracted_data (Json.obj []) =
      .ok ⟨Json.obj [], Json.arr []⟩ ∧
    serp_search "ev" "google"
      (fun z => if z = "ai_agent" then some (Json.obj []) else none) =
      (["ai_agent"], .ok none) ∧
    (Except.ok (some (⟨Json.obj [], Json.arr []⟩ : SerpResult)) :
      Except PyErr (Option SerpResult)) ≠ .ok none := by
  refine ⟨rfl, ?_, rfl, ?_⟩
  · simpa using extracted_data_obj []
  · intro hc
    simp at hc

/-- C5 amended: for a supported engine and provided every parsed
payload is a JSON object, `serp_search` never raises: it requests the
configured zones in order up to the first zone whose response is truthy
(non-empty), returns that zone's normalized result, skips zones whose
request fails or returns a falsy payload, and returns an absent result
after exhausting all zones.  (For a truthy non-object payload the
normalization's `.get` would raise `AttributeError` — part of why the
original claim fails.) -/
theorem serp_search_zone_iteration (query engine : String)
    (oracle : String → Option Json)
    (heng : engine = "google" ∨ engine = "bing")
    (hobj : ∀ z j, oracle z = some j → ∃ fields, j = Json.obj fields) :
    serp_search query engine oracle =
      (requestedZones oracle zones_to_try,
       .ok ((firstTruthyJson oracle zones_to_try).map serpNormalize)) ∧
    ∀ e, (serp_search query engine oracle).2 ≠ .error e := by
  have hloop := serpZoneLoop_spec oracle hobj zones_to_try
  have heq : serp_search query engine oracle =
      serpZoneLoop oracle zones_to_try := by
    rcases heng with rfl | rfl <;> simp [serp_search]
  refine ⟨heq.trans hloop, ?_⟩
  intro e hc
  rw [heq, hloop] at hc
  simp at hc

/-- Witness for the amended C5: all zones fail, so the result is
absent and the single configured zone was requested. -/
theorem serp_search_zone_iteration_witness :
    serp_search "ev" "google" (fun _ => none) =
      (requestedZones (fun _ => none) zones_to_try,
       .ok ((firstTruthyJson (fun _ => none) zones_to_try).map
         serpNormalize)) ∧
    ∀ e, (serp_search "ev" "google" (fun _ => none)).2 ≠ .error e :=
  serp_search_zone_iteration "ev" "google" (fun _ => none) (Or.inl rfl)
    (fun z j hj => by cases hj)

/-- C6: on an object-shaped successful payload, normalization extracts
exactly the `knowledge` and `organic` fields, defaulting a missing
`knowledge` to an empty mapping and a missing `organic` to an empty
list, and its value is unchanged by any other field of the payload. -/
theorem normalization_extracts_fixed_fields (fields : List (String × Json)) :
    (extracted_data (Json.obj fields) =
      .ok ⟨(kvLookup fields "knowledge").getD (Json.obj []),
           (kvLookup fields "organic").getD (Json.arr [])⟩) ∧
    (∀ (k : String) (v : Json), k ≠ "knowledge" → k ≠ "organic" →
      extracted_data (Json.obj ((k, v) :: fields)) =
        extracted_data (Json.obj fields)) := by
  refine ⟨extracted_data_obj fields, ?_⟩
  intro k v hk ho
  rw [extracted_data_obj, extracted_data_obj]
  simp [kvLookup, hk, ho]

/-- Witness for C6: both defaults fire on a payload with only an
unrelated field, and adding another unrelated field changes nothing. -/
theorem normalization_extracts_fixed_fields_witness :
    (extracted_data (Json.obj [("other", Json.num 1)]) =
      .ok ⟨(kvLookup [("other", Json.num 1)] "knowledge").getD (Json.obj []),
           (kvLookup [("other", Json.num 1)] "organic").getD (Json.arr [])⟩) ∧
    extracted_data (Json.obj [("foo", Json.null), ("other", Json.num 1)]) =
      extracted_data (Json.obj [("other", Json.num 1)]) :=
  ⟨(normalization_extracts_fixed_fields [("other", Json.num 1)]).1,
   (normalization_extracts_fixed_fields [("other", Json.num 1)]).2 "foo"
     Json.null (by decide) (by decide)⟩

end AISearch
